import Mathlib

/-!
Shallow embedding of the Shopee marketplace client core
(internal/domain/shopee/{retry,ratelimit,token}.go and
internal/providers/shopee/returns.go) and proofs about it.

Go machine integers are modelled as `Int`, Go `float64` arithmetic in the
rate limiter and backoff calculator is modelled over `ℚ` (the properties at
stake are order-of-operations and bound properties of the algorithms, not
floating-point rounding), Go strings as Lean `String`, and byte slices as
`List Nat`.
-/

/- ===================== Error taxonomy (internal/domain/shopee, token section) ===================== -/

/-- Go: `type ErrorCode string`. -/
abbrev ErrorCode := String

def CodeAuthError : ErrorCode := "error_auth"
def CodeInvalidSign : ErrorCode := "error_sign"
def CodeInvalidTimestamp : ErrorCode := "error_timestamp"
def CodePermissionDenied : ErrorCode := "error_permission"
def CodeInvalidParam : ErrorCode := "error_param"
def CodeExceedLimit : ErrorCode := "error_exceed_limit"
def CodeServerError : ErrorCode := "error_server"
def CodeNotFound : ErrorCode := "error_not_found"
def CodeProductBanned : ErrorCode := "error_product_banned"
def CodeOrderCancelled : ErrorCode := "error_order_cancelled"

/-- Go: `func (c ErrorCode) IsRetryable() bool` — true for `error_exceed_limit`
and `error_server` only. -/
def ErrorCode.IsRetryable (c : ErrorCode) : Bool :=
  if c = CodeExceedLimit ∨ c = CodeServerError then true else false

/-- Go: `type APIError struct { Code; Message; RequestID; StatusCode }`. -/
structure APIError where
  Code : ErrorCode
  Message : String
  RequestID : String
  StatusCode : Int
deriving DecidableEq, Repr

/-- Go: `func (e *APIError) IsRetryable() bool` — code-retryable, or HTTP
status 429, 503, or any status >= 500. -/
def APIError.IsRetryable (e : APIError) : Bool :=
  if e.Code.IsRetryable then true
  else decide (e.StatusCode = 429) || decide (e.StatusCode = 503) || decide (e.StatusCode ≥ 500)

/-- Go: `type ErrorCategory string` constants. -/
abbrev ErrorCategory := String

def CategoryAuthentication : ErrorCategory := "authentication"
def CategoryRateLimit : ErrorCategory := "rate_limit"
def CategoryServer : ErrorCategory := "server"
def CategoryNotFound : ErrorCategory := "not_found"
def CategoryValidation : ErrorCategory := "validation"
def CategoryUnknown : ErrorCategory := "unknown"

/-- Go: `func (e *APIError) Category() ErrorCategory` — switch over the code. -/
def APIError.Category (e : APIError) : ErrorCategory :=
  if e.Code = CodeAuthError ∨ e.Code = CodeInvalidSign ∨ e.Code = CodeInvalidTimestamp ∨
      e.Code = CodePermissionDenied then CategoryAuthentication
  else if e.Code = CodeExceedLimit then CategoryRateLimit
  else if e.Code = CodeServerError then CategoryServer
  else if e.Code = CodeNotFound ∨ e.Code = CodeProductBanned ∨ e.Code = CodeOrderCancelled then
    CategoryNotFound
  else if e.Code = CodeInvalidParam then CategoryValidation
  else CategoryUnknown

/-- Go: `containsAny(s, substrs...)` — byte-wise substring scan; here over the
character list of the string (the substrings involved are ASCII). -/
def listContainsSub (s sub : List Char) : Bool :=
  match s with
  | [] => sub.isEmpty
  | _ :: rest => sub.isPrefixOf s || listContainsSub rest sub

def containsAny (s : String) (substrs : List String) : Bool :=
  substrs.any fun sub => listContainsSub s.data sub.data

/-- Go: `func (e *APIError) isTokenExpired() bool` — code must be `error_auth`
and the message must contain one of the known substrings. -/
def APIError.isTokenExpired (e : APIError) : Bool :=
  if e.Code ≠ CodeAuthError then false
  else containsAny e.Message ["token expired", "invalid token", "access_token invalid"]

/-- Go errors reaching the retry loop: a structured `*APIError`, the context
cancellation error, or a plain message-only error (`errors.New`/`fmt.Errorf`). -/
inductive GoError where
  | api (e : APIError)
  | ctxCanceled
  | plain (msg : String)
deriving DecidableEq, Repr

/-- Message of the sentinel `ErrTokenExpired = errors.New("access token has expired")`. -/
def errTokenExpiredMsg : String := "access token has expired"

/-- Go `err.Error()`: `APIError.Error()` formats
`"shopee [%s]: %s"` or `"shopee [%s]: %s (request_id: %s)"`. -/
def errorString : GoError → String
  | .api e =>
      if e.RequestID ≠ "" then
        "shopee [" ++ e.Code ++ "]: " ++ e.Message ++ " (request_id: " ++ e.RequestID ++ ")"
      else
        "shopee [" ++ e.Code ++ "]: " ++ e.Message
  | .ctxCanceled => "context canceled"
  | .plain msg => msg

/-- The retryable flag the Executor consults: only `*APIError` values carry one
(Go type assertion `err.(*APIError)`); every other error type is non-retryable. -/
def GoError.retryableFlag : GoError → Bool
  | .api e => e.IsRetryable
  | _ => false

/- ===================== RetryPolicy / Executor (internal/domain/shopee/retry.go) ===================== -/

/-- Go: `type RetryPolicy struct` — `maxAttempts int`; the duration/float
fields (`initialDelay`, `maxDelay` are `time.Duration`; `multiplier`,
`jitterFactor` are `float64`) are modelled over `ℚ`.
`retryableErrors` is carried by the Go struct but never read. -/
structure RetryPolicy where
  maxAttempts : Int
  initialDelay : ℚ
  maxDelay : ℚ
  multiplier : ℚ
  jitterFactor : ℚ
deriving DecidableEq, Repr

/-- Go: `func (p *RetryPolicy) ShouldRetry(err error, attempt int) bool`. -/
def RetryPolicy.ShouldRetry (p : RetryPolicy) (err : Option GoError) (attempt : Int) : Bool :=
  if attempt ≥ p.maxAttempts then false
  else match err with
    | none => false
    | some e => e.retryableFlag

/-- Go: `func (p *RetryPolicy) DelayForAttempt(attempt int) time.Duration`.
The random draw `rand.Float64()*2 - 1` (uniform in `[-1, 1)`) is made an
explicit parameter `j`. Note the order in the source: exponential delay,
then jitter, then the `maxDelay` cap. -/
def RetryPolicy.rawDelay (p : RetryPolicy) (attempt : Int) : ℚ :=
  p.initialDelay * p.multiplier ^ (attempt - 1).toNat

/-- The delay after the jitter step
(`delay += delay * jitterFactor * (rand.Float64()*2 - 1)` when
`jitterFactor > 0`). -/
def RetryPolicy.jitteredDelay (p : RetryPolicy) (attempt : Int) (j : ℚ) : ℚ :=
  if p.jitterFactor > 0 then p.rawDelay attempt + p.rawDelay attempt * p.jitterFactor * j
  else p.rawDelay attempt

def RetryPolicy.DelayForAttempt (p : RetryPolicy) (attempt : Int) (j : ℚ) : ℚ :=
  if attempt ≤ 0 then 0
  else if p.jitteredDelay attempt j > p.maxDelay then p.maxDelay
  else p.jitteredDelay attempt j

/-- The exponential delay with the cap already applied. -/
def RetryPolicy.cappedDelay (p : RetryPolicy) (attempt : Int) : ℚ :=
  if p.rawDelay attempt > p.maxDelay then p.maxDelay else p.rawDelay attempt

/-- The order of operations the spec describes for `DelayForAttempt`
(cap applied to the exponential delay, then jitter added): written from the
spec's words, for comparison with the source-translated definition above. -/
def RetryPolicy.DelayForAttemptCapBeforeJitter (p : RetryPolicy) (attempt : Int) (j : ℚ) : ℚ :=
  if attempt ≤ 0 then 0
  else if p.jitterFactor > 0 then
    p.cappedDelay attempt + p.cappedDelay attempt * p.jitterFactor * j
  else p.cappedDelay attempt

/-- Go: `func (p *RetryPolicy) WithMaxAttempts(n int) *RetryPolicy` (the Go
method mutates in place and returns the receiver; modelled functionally). -/
def RetryPolicy.WithMaxAttempts (p : RetryPolicy) (n : Int) : RetryPolicy :=
  { p with maxAttempts := n }

/-- Go: `type RetryResult struct { Attempts int; LastError error; Duration }`
(the wall-clock `Duration` field is dropped). -/
structure RetryResult where
  Attempts : Int
  LastError : Option GoError
deriving DecidableEq, Repr

/-- The `for attempt := 1; attempt <= maxAttempts; attempt++` loop of
`Executor.Execute`, generic in the state `σ` threaded through the effectful
`operation()` closure (for the bare Executor, `σ` counts the calls; for
`Client.Do`, it counts HTTP calls and token refreshes).

`fuel` is the number of loop iterations still permitted by the loop
condition (`maxAttempts - attempt + 1`, clamped at zero), `attempt` the Go
loop counter, `attemptsSet`/`lastErr` the current `result.Attempts` /
`result.LastError` fields, and `ctxOK attempt` tells whether the backoff
wait for that attempt finished before context cancellation
(`WaitForRetry`). Note the source quirk: an attempt that succeeds returns
with whatever `result.LastError` was previously recorded. -/
def execLoop (p : RetryPolicy) {σ : Type} (op : σ → Option GoError × σ) (ctxOK : Int → Bool) :
    Nat → Int → Int → Option GoError → σ → RetryResult × σ
  | 0, _attempt, attemptsSet, lastErr, s => (⟨attemptsSet, lastErr⟩, s)
  | fuel + 1, attempt, _attemptsSet, lastErr, s =>
    match op s with
    | (none, s2) => (⟨attempt, lastErr⟩, s2)
    | (some e, s2) =>
      if p.ShouldRetry (some e) attempt then
        if attempt < p.maxAttempts then
          if ctxOK attempt then
            execLoop p op ctxOK fuel (attempt + 1) attempt (some e) s2
          else (⟨attempt, some GoError.ctxCanceled⟩, s2)
        else
          execLoop p op ctxOK fuel (attempt + 1) attempt (some e) s2
      else (⟨attempt, some e⟩, s2)

/-- Go: `func (e *Executor) Execute(ctx, operation) *RetryResult`, with the
operation modelled by the results `op k` of its successive invocations
(`none` = success); also returns the number of invocations made. -/
def executeGo (p : RetryPolicy) (op : Nat → Option GoError) (ctxOK : Int → Bool) :
    RetryResult × Nat :=
  execLoop p (fun n => (op n, n + 1)) ctxOK p.maxAttempts.toNat 1 0 none 0

/- ===================== Client (internal/providers/shopee/returns.go) ===================== -/

/-- Go: `isTokenExpiredError(err)` in returns.go — only the type assertion and
the code are checked, not the message. -/
def isTokenExpiredError : GoError → Bool
  | .api e => e.Code == CodeAuthError
  | _ => false

/-- The condition in `Client.Do` guarding the refresh path:
`shopeedomain.ErrTokenExpired.Error() == err.Error() || isTokenExpiredError(err)`. -/
def tokenExpiredTrigger (e : GoError) : Bool :=
  (errTokenExpiredMsg == errorString e) || isTokenExpiredError e

/-- The error `Client.Do` substitutes after a successful refresh:
`NewAPIError(CodeAuthError, "token refreshed, retrying", http.StatusUnauthorized)`. -/
def tokenRefreshedSentinel : GoError :=
  .api ⟨CodeAuthError, "token refreshed, retrying", "", 401⟩

/-- Model of one `Client`: its retry policy, whether a `tokenRefresher` is
configured and a refresh token is present, and the observable outcomes of
the successive `doRequest` HTTP attempts and `Refresher.RefreshToken`
invocations (`none` = success). -/
structure ClientModel where
  policy : RetryPolicy
  hasRefresher : Bool
  refreshTokenPresent : Bool
  doReqResults : Nat → Option GoError
  refreshResults : Nat → Option GoError

/-- Go: `func (c *Client) tryRefreshToken(ctx) error`, at the `r`-th refresher
invocation; the second component records whether `RefreshToken` was
actually invoked (it is not when no refresher is configured or no refresh
token is present). -/
def ClientModel.tryRefreshToken (c : ClientModel) (r : Nat) : Option GoError × Bool :=
  if ¬ c.hasRefresher then (some (.plain "no token refresher configured"), false)
  else if ¬ c.refreshTokenPresent then (some (.plain "no refresh token available"), false)
  else match c.refreshResults r with
    | some e => (some e, true)
    | none => (none, true)

/-- The closure `Client.Do` hands to `Executor.Execute`: run `doRequest`; on a
token-expired-classified error try a refresh, surfacing the original error
if the refresh fails and the sentinel error if it succeeds. State: (number
of `doRequest` calls so far, number of `RefreshToken` invocations so far). -/
def ClientModel.doOp (c : ClientModel) : Nat × Nat → Option GoError × (Nat × Nat) :=
  fun hr =>
    match c.doReqResults hr.1 with
    | none => (none, (hr.1 + 1, hr.2))
    | some e =>
      if tokenExpiredTrigger e then
        match c.tryRefreshToken hr.2 with
        | (some _, invoked) => (some e, (hr.1 + 1, hr.2 + (if invoked then 1 else 0)))
        | (none, _) => (some tokenRefreshedSentinel, (hr.1 + 1, hr.2 + 1))
      else (some e, (hr.1 + 1, hr.2))

/-- Go: `func (c *Client) Do(ctx, req, result) error` — the Executor run;
returns the final `RetryResult` together with (HTTP calls, refresh
invocations). -/
def ClientModel.Do (c : ClientModel) (ctxOK : Int → Bool) : RetryResult × (Nat × Nat) :=
  execLoop c.policy c.doOp ctxOK c.policy.maxAttempts.toNat 1 0 none (0, 0)

/-- The error value `Client.Do` returns: `retryResult.LastError` when non-nil,
else `nil` (success). -/
def ClientModel.DoError (c : ClientModel) (ctxOK : Int → Bool) : Option GoError :=
  (c.Do ctxOK).1.LastError

/-- External interactions of a single `Client.doRequest` attempt, in source
order (returns.go lines 515-634): read the credential snapshot under the
read lock, compute the signature, perform the HTTP call, parse the
response envelope. The listing is exhaustive: `doRequest` performs no
other external interaction — in particular no rate-limiter wait. -/
inductive ClientEffect where
  | readCredentials
  | generateSign (path : String)
  | httpCall (method path : String)
  | rateLimiterWait (path : String)
  | parseResponse
deriving DecidableEq, Repr

/-- Go: `type Request struct { Method; Path; Query; Body; NeedAuth }`
(query and body are irrelevant to the properties proved here). -/
structure Request where
  Method : String
  Path : String
  NeedAuth : Bool
deriving DecidableEq, Repr

/-- The interaction trace of `Client.doRequest` for a request: credentials
snapshot (lines 519-522), signature (lines 531-538), HTTP call (line 570),
envelope parse (lines 592-631). No `RateLimiter.Wait` step occurs anywhere
in the function (nor anywhere else in the client). -/
def doRequestEffects (req : Request) : List ClientEffect :=
  [.readCredentials, .generateSign req.Path, .httpCall req.Method req.Path, .parseResponse]

def ClientEffect.isRateLimiterWait : ClientEffect → Bool
  | .rateLimiterWait _ => true
  | _ => false

def ClientEffect.isHttpCall : ClientEffect → Bool
  | .httpCall _ _ => true
  | _ => false

/- ===================== RateLimiter (internal/domain/shopee/ratelimit.go) ===================== -/

/-- Go: `type tokenBucket struct { tokens, maxTokens, refillRate float64;
lastRefill time.Time }` — `float64` modelled over `ℚ`; instead of carrying
`lastRefill`, `take` receives the elapsed seconds since the previous call
as an argument. -/
structure TokenBucket where
  tokens : ℚ
  maxTokens : ℚ
  refillRate : ℚ
deriving DecidableEq, Repr

/-- Go: `newTokenBucket(rps, burst int)` — starts full. -/
def newTokenBucket (rps burst : Int) : TokenBucket :=
  { tokens := burst, maxTokens := burst, refillRate := rps }

/-- Go: `func (tb *tokenBucket) take() time.Duration` — lazily refill by
`elapsed * refillRate` capped at `maxTokens`; take a token if at least one
is available (returning zero wait), else report the wait for the next
token. Returns (updated bucket, wait in seconds). -/
def TokenBucket.refill (tb : TokenBucket) (elapsed : ℚ) : ℚ :=
  if tb.tokens + elapsed * tb.refillRate > tb.maxTokens then tb.maxTokens
  else tb.tokens + elapsed * tb.refillRate

def TokenBucket.take (tb : TokenBucket) (elapsed : ℚ) : TokenBucket × ℚ :=
  if tb.refill elapsed ≥ 1 then ({ tb with tokens := tb.refill elapsed - 1 }, 0)
  else ({ tb with tokens := tb.refill elapsed }, (1 - tb.refill elapsed) / tb.refillRate)

/-- A sequence of `take()` calls, with the given elapsed times before each. -/
def runTakes (tb : TokenBucket) : List ℚ → TokenBucket
  | [] => tb
  | e :: es => runTakes (tb.take e).1 es

/-- The bucket invariant of the spec: `0 <= tokens <= maxTokens`. -/
def TokenBucket.inv (tb : TokenBucket) : Prop :=
  0 ≤ tb.tokens ∧ tb.tokens ≤ tb.maxTokens

instance (tb : TokenBucket) : Decidable tb.inv := by
  unfold TokenBucket.inv; infer_instance

/-- Go: `type PathLimit struct { RPS, Burst int }`. -/
structure PathLimit where
  RPS : Int
  Burst : Int
deriving DecidableEq, Repr

/-- Go: `type RateLimitConfig struct` — `PathLimits` is a Go
`map[string]PathLimit`; since both lookups over it iterate the map and Go
map iteration order is unspecified, the map is modelled as an association
list whose order stands for one possible iteration order. -/
structure RateLimitConfig where
  DefaultRPS : Int
  DefaultBurst : Int
  PathLimits : List (String × PathLimit)
deriving DecidableEq, Repr

/-- The prefix test of the two lookup loops, Go:
`len(path) >= len(prefix) && path[:len(prefix)] == prefix` — byte-wise,
modelled over the character lists. -/
def goIsPrefixOf (pre s : String) : Bool := pre.data.isPrefixOf s.data

/-- The loop of `findBucketKey`: return the first registered key (in
iteration order) that is a prefix of the path. -/
def findBucketKeyLoop (path : String) : List (String × PathLimit) → String
  | [] => "default"
  | (key, _) :: rest => if goIsPrefixOf key path then key else findBucketKeyLoop path rest

/-- Go: `func (rl *RateLimiter) findBucketKey(path string) string`. -/
def findBucketKey (cfg : RateLimitConfig) (path : String) : String :=
  findBucketKeyLoop path cfg.PathLimits

/-- The loop of `getLimitForPath`: limit of the first registered key (in
iteration order) that is a prefix of the path, else the defaults. -/
def getLimitForPathLoop (dRPS dBurst : Int) (path : String) :
    List (String × PathLimit) → Int × Int
  | [] => (dRPS, dBurst)
  | (key, l) :: rest =>
      if goIsPrefixOf key path then (l.RPS, l.Burst)
      else getLimitForPathLoop dRPS dBurst path rest

/-- Go: `func (rl *RateLimiter) getLimitForPath(path string) (rps, burst int)`. -/
def getLimitForPath (cfg : RateLimitConfig) (path : String) : Int × Int :=
  getLimitForPathLoop cfg.DefaultRPS cfg.DefaultBurst path cfg.PathLimits

/- ===================== Signature (internal/domain/shopee, signature section) =====================
The Go code delegates to the standard library's `crypto/hmac` and
`crypto/sha256`; those are embedded here concretely (FIPS 180-4 SHA-256 and
RFC 2104 HMAC over it), with bytes as `List Nat` and 32-bit words as `Nat`
reduced mod 2^32. Go strings are mapped to bytes via their character codes
(faithful for the ASCII data involved). -/

/-- Reduce to a 32-bit word. -/
def w32 (n : Nat) : Nat := n % 4294967296

/-- Right rotation of a 32-bit word. -/
def rotr32 (x n : Nat) : Nat := (x >>> n) ||| w32 (x <<< (32 - n))

def sha256Ch (x y z : Nat) : Nat := (x &&& y) ^^^ ((4294967295 - w32 x) &&& z)

def sha256Maj (x y z : Nat) : Nat := (x &&& y) ^^^ (x &&& z) ^^^ (y &&& z)

def sha256BigSigma0 (x : Nat) : Nat := rotr32 x 2 ^^^ rotr32 x 13 ^^^ rotr32 x 22

def sha256BigSigma1 (x : Nat) : Nat := rotr32 x 6 ^^^ rotr32 x 11 ^^^ rotr32 x 25

def sha256SmallSigma0 (x : Nat) : Nat := rotr32 x 7 ^^^ rotr32 x 18 ^^^ (x >>> 3)

def sha256SmallSigma1 (x : Nat) : Nat := rotr32 x 17 ^^^ rotr32 x 19 ^^^ (x >>> 10)

/-- The 64 SHA-256 round constants (FIPS 180-4, in decimal). -/
def sha256K : List Nat :=
  [1116352408, 1899447441, 3049323471, 3921009573, 961987163, 1508970993,
   2453635748, 2870763221, 3624381080, 310598401, 607225278, 1426881987,
   1925078388, 2162078206, 2614888103, 3248222580, 3835390401, 4022224774,
   264347078, 604807628, 770255983, 1249150122, 1555081692, 1996064986,
   2554220882, 2821834349, 2952996808, 3210313671, 3336571891, 3584528711,
   113926993, 338241895, 666307205, 773529912, 1294757372, 1396182291,
   1695183700, 1986661051, 2177026350, 2456956037, 2730485921, 2820302411,
   3259730800, 3345764771, 3516065817, 3600352804, 4094571909, 275423344,
   430227734, 506948616, 659060556, 883997877, 958139571, 1322822218,
   1537002063, 1747873779, 1955562222, 2024104815, 2227730452, 2361852424,
   2428436474, 2756734187, 3204031479, 3329325298]

/-- Big-endian 8-byte encoding of the bit length. -/
def len64be (n : Nat) : List Nat :=
  [n >>> 56 % 256, n >>> 48 % 256, n >>> 40 % 256, n >>> 32 % 256,
   n >>> 24 % 256, n >>> 16 % 256, n >>> 8 % 256, n % 256]

/-- SHA-256 padding: append 0x80, zeros to 56 mod 64, then the 64-bit length. -/
def sha256Pad (msg : List Nat) : List Nat :=
  msg ++ 0x80 :: List.replicate ((119 - msg.length % 64) % 64) 0 ++ len64be (msg.length * 8)

/-- Group bytes into big-endian 32-bit words. -/
def toWordsBE : List Nat → List Nat
  | b0 :: b1 :: b2 :: b3 :: rest => (((b0 * 256 + b1) * 256 + b2) * 256 + b3) :: toWordsBE rest
  | _ => []

/-- Split a word list into 16-word blocks. -/
def chunk16 : List Nat → List (List Nat)
  | [] => []
  | x :: xs => (x :: xs.take 15) :: chunk16 (xs.drop 15)
termination_by l => l.length
decreasing_by simp_all [List.length_drop]; omega

/-- Extend the 16-word message schedule to 64 words (indices `i` upward,
`fuel` words still to produce). -/
def sha256Extend : Nat → Nat → Array Nat → Array Nat
  | 0, _, w => w
  | fuel + 1, i, w =>
      let nw := w32 (sha256SmallSigma1 (w.getD (i - 2) 0) + w.getD (i - 7) 0 +
        sha256SmallSigma0 (w.getD (i - 15) 0) + w.getD (i - 16) 0)
      sha256Extend fuel (i + 1) (w.push nw)

/-- The eight SHA-256 working variables. -/
structure Hash8 where
  a : Nat
  b : Nat
  c : Nat
  d : Nat
  e : Nat
  f : Nat
  g : Nat
  h : Nat
deriving DecidableEq, Repr

def sha256H0 : Hash8 :=
  ⟨1779033703, 3144134277, 1013904242, 2773480762,
   1359893119, 2600822924, 528734635, 1541459225⟩

/-- One SHA-256 compression round. -/
def sha256Round (s : Hash8) (kw : Nat × Nat) : Hash8 :=
  let t1 := w32 (s.h + sha256BigSigma1 s.e + sha256Ch s.e s.f s.g + kw.1 + kw.2)
  let t2 := w32 (sha256BigSigma0 s.a + sha256Maj s.a s.b s.c)
  ⟨w32 (t1 + t2), s.a, s.b, s.c, w32 (s.d + t1), s.e, s.f, s.g⟩

/-- Compress one 16-word block into the running hash. -/
def sha256Block (h : Hash8) (block : List Nat) : Hash8 :=
  let w := sha256Extend 48 16 (Array.mk block)
  let s := (sha256K.zip w.toList).foldl sha256Round h
  ⟨w32 (h.a + s.a), w32 (h.b + s.b), w32 (h.c + s.c), w32 (h.d + s.d),
   w32 (h.e + s.e), w32 (h.f + s.f), w32 (h.g + s.g), w32 (h.h + s.h)⟩

/-- Big-endian bytes of a 32-bit word. -/
def wordBytesBE (w : Nat) : List Nat :=
  [w >>> 24 % 256, w >>> 16 % 256, w >>> 8 % 256, w % 256]

/-- SHA-256 of a byte sequence (FIPS 180-4). -/
def sha256 (msg : List Nat) : List Nat :=
  let h := (chunk16 (toWordsBE (sha256Pad msg))).foldl sha256Block sha256H0
  ([h.a, h.b, h.c, h.d, h.e, h.f, h.g, h.h].map wordBytesBE).flatten

/-- HMAC-SHA256 (RFC 2104, block size 64). -/
def hmacSha256 (key msg : List Nat) : List Nat :=
  let k0 := if key.length > 64 then sha256 key else key
  let k1 := k0 ++ List.replicate (64 - k0.length) 0
  let ipad := k1.map fun b => b ^^^ 0x36
  let opad := k1.map fun b => b ^^^ 0x5c
  sha256 (opad ++ sha256 (ipad ++ msg))

/-- Lowercase hex digit. -/
def hexDigit (n : Nat) : Char :=
  if n < 10 then Char.ofNat (48 + n) else Char.ofNat (87 + n)

/-- Go: `hex.EncodeToString` (lowercase). -/
def hexEncode (bs : List Nat) : String :=
  ⟨(bs.map fun b => [hexDigit (b / 16 % 16), hexDigit (b % 16)]).flatten⟩

/-- Byte model of a Go string (character codes; faithful for ASCII data). -/
def strBytes (s : String) : List Nat := s.data.map Char.toNat

/-- Go: `subtle.ConstantTimeCompare` as used by `hmac.Equal`: false on length
mismatch, else byte-wise equality. -/
def constantTimeCompare (x y : List Nat) : Bool :=
  if x.length = y.length then (x.zip y).all fun p => p.1 == p.2 else false

/-- Go: `type Signature struct { partnerKey string }`. -/
structure Signature where
  partnerKey : String

/-- Go: `func (s *Signature) sign(baseString string) string` — hex-encoded
HMAC-SHA256 of the base string under the partner key. The base string is
passed as its byte sequence. -/
def Signature.sign (s : Signature) (baseString : List Nat) : String :=
  hexEncode (hmacSha256 (strBytes s.partnerKey) baseString)

/-- Go: `func (s *Signature) VerifyWebhook(baseURL string, body []byte,
providedSignature string) bool` — recompute the signature of
`baseURL + "|" + string(body)` and compare with `hmac.Equal`. -/
def Signature.VerifyWebhook (s : Signature) (baseURL : String) (body : List Nat)
    (providedSignature : String) : Bool :=
  let baseString := strBytes baseURL ++ [124] ++ body
  let expectedSignature := s.sign baseString
  constantTimeCompare (strBytes expectedSignature) (strBytes providedSignature)

/- ===================== Helper lemmas ===================== -/

theorem constantTimeCompare_self (x : List Nat) : constantTimeCompare x x = true := by
  unfold constantTimeCompare
  rw [if_pos rfl]
  induction x with
  | nil => rfl
  | cons a l ih => simp [List.zip] at ih ⊢

theorem shopee_formatted_ne_sentinel (x y : String) :
    "shopee [" ++ x ++ "]: " ++ y ≠ errTokenExpiredMsg := by
  intro h
  have hd := congrArg String.data h
  simp only [String.data_append, errTokenExpiredMsg] at hd
  simp [List.cons_append, List.append_assoc] at hd

theorem shopee_formatted_rid_ne_sentinel (x y z : String) :
    "shopee [" ++ x ++ "]: " ++ y ++ " (request_id: " ++ z ++ ")" ≠ errTokenExpiredMsg := by
  intro h
  have hd := congrArg String.data h
  simp only [String.data_append, errTokenExpiredMsg] at hd
  simp [List.cons_append, List.append_assoc] at hd

theorem errorString_api_ne_sentinel (e : APIError) :
    errTokenExpiredMsg ≠ errorString (.api e) := by
  simp only [errorString]
  split_ifs with h
  · exact fun hh => shopee_formatted_rid_ne_sentinel e.Code e.Message e.RequestID hh.symm
  · exact fun hh => shopee_formatted_ne_sentinel e.Code e.Message hh.symm

theorem shouldRetry_false_of_flag (p : RetryPolicy) (e : GoError) (attempt : Int)
    (hf : e.retryableFlag = false) : p.ShouldRetry (some e) attempt = false := by
  unfold RetryPolicy.ShouldRetry
  split_ifs <;> simp [hf]

/- ===================== Claim theorems ===================== -/

/-- C1: the interaction trace of a `Client.doRequest` attempt contains its one
HTTP call but no `RateLimiter.Wait` step — contrary to the claim, the
client never consults the rate limiter before sending (the `Client` struct
has no rate-limiter field and `RateLimiter.Wait` has no callers). -/
theorem doRequest_no_rate_limiter_wait (req : Request) :
    (doRequestEffects req).countP ClientEffect.isRateLimiterWait = 0 ∧
    (doRequestEffects req).countP ClientEffect.isHttpCall = 1 := by
  constructor <;> rfl

/-- C5: an `APIError` is retryable exactly when its code is
`error_exceed_limit` or `error_server`, or its HTTP status is 429, 503, or
at least 500. -/
theorem isRetryable_iff (e : APIError) :
    e.IsRetryable = true ↔ (e.Code = CodeExceedLimit ∨ e.Code = CodeServerError ∨
      e.StatusCode = 429 ∨ e.StatusCode = 503 ∨ 500 ≤ e.StatusCode) := by
  unfold APIError.IsRetryable ErrorCode.IsRetryable
  split_ifs with h1 h2 <;> simp_all <;> tauto

/-- C9: verifying a webhook against the signature the same signer computed
over `baseURL ++ "|" ++ body` succeeds. -/
theorem verifyWebhook_roundtrip (s : Signature) (baseURL : String) (body : List Nat) :
    s.VerifyWebhook baseURL body (s.sign (strBytes baseURL ++ [124] ++ body)) = true := by
  unfold Signature.VerifyWebhook
  exact constantTimeCompare_self _

/-- C8 counterexample: with `initialDelay = 100`, `multiplier = 2`,
`maxDelay = 100`, `jitterFactor = 1/2`, attempt 2 and jitter draw 1, the
source's `DelayForAttempt` returns exactly `maxDelay` (the cap is applied
after jitter), while the claimed cap-before-jitter order would return 150,
strictly above `maxDelay`. -/
theorem delay_cap_after_jitter_counterexample :
    RetryPolicy.DelayForAttempt ⟨3, 100, 100, 2, 1/2⟩ 2 1 = 100 ∧
    ¬ ((100 : ℚ) > (⟨3, 100, 100, 2, 1/2⟩ : RetryPolicy).maxDelay) ∧
    RetryPolicy.DelayForAttemptCapBeforeJitter ⟨3, 100, 100, 2, 1/2⟩ 2 1 = 150 := by
  refine ⟨?_, by norm_num, ?_⟩ <;>
    norm_num [RetryPolicy.DelayForAttempt, RetryPolicy.DelayForAttemptCapBeforeJitter,
      RetryPolicy.jitteredDelay, RetryPolicy.cappedDelay, RetryPolicy.rawDelay]

/-- C8 amended: `DelayForAttempt` caps after adding jitter, so for every
attempt at least 1 and every jitter draw the returned delay never exceeds
`maxDelay`. -/
theorem delayForAttempt_le_maxDelay (p : RetryPolicy) (attempt : Int) (j : ℚ)
    (h : 1 ≤ attempt) : p.DelayForAttempt attempt j ≤ p.maxDelay := by
  unfold RetryPolicy.DelayForAttempt
  rw [if_neg (by omega)]
  split_ifs with h2
  · exact le_refl _
  · linarith

/-- C8 amended, witness at attempt 1, jitter draw 0. -/
theorem delayForAttempt_le_maxDelay_witness :
    (1 : Int) ≤ 1 ∧
    RetryPolicy.DelayForAttempt ⟨3, 100, 100, 2, 1/2⟩ 1 0 ≤
      (⟨3, 100, 100, 2, 1/2⟩ : RetryPolicy).maxDelay :=
  ⟨le_refl 1, delayForAttempt_le_maxDelay ⟨3, 100, 100, 2, 1/2⟩ 1 0 (le_refl 1)⟩

theorem take_maxTokens (tb : TokenBucket) (e : ℚ) : (tb.take e).1.maxTokens = tb.maxTokens := by
  unfold TokenBucket.take
  split_ifs <;> rfl

theorem take_refillRate (tb : TokenBucket) (e : ℚ) : (tb.take e).1.refillRate = tb.refillRate := by
  unfold TokenBucket.take
  split_ifs <;> rfl

theorem refill_bounds (tb : TokenBucket) (e : ℚ) (hrate : 0 ≤ tb.refillRate)
    (hinv : tb.inv) (he : 0 ≤ e) : 0 ≤ tb.refill e ∧ tb.refill e ≤ tb.maxTokens := by
  obtain ⟨h0, h1⟩ := hinv
  have hmul : 0 ≤ e * tb.refillRate := mul_nonneg he hrate
  unfold TokenBucket.refill
  split_ifs with hcap <;> constructor <;> linarith

theorem take_preserves_inv (tb : TokenBucket) (e : ℚ) (hrate : 0 ≤ tb.refillRate)
    (hinv : tb.inv) (he : 0 ≤ e) : (tb.take e).1.inv := by
  obtain ⟨hr0, hr1⟩ := refill_bounds tb e hrate hinv he
  unfold TokenBucket.take TokenBucket.inv
  split_ifs with htake <;> constructor <;> simp only [] <;> linarith

theorem runTakes_inv (tb : TokenBucket) (es : List ℚ) (hrate : 0 ≤ tb.refillRate)
    (hinv : tb.inv) (he : ∀ e ∈ es, 0 ≤ e) : (runTakes tb es).inv := by
  induction es generalizing tb with
  | nil => exact hinv
  | cons e es ih =>
    rw [runTakes]
    refine ih _ ?_ ?_ fun x hx => he x (List.mem_cons_of_mem e hx)
    · rw [take_refillRate]; exact hrate
    · exact take_preserves_inv tb e hrate hinv (he e (List.mem_cons_self e es))

/-- C6: a token bucket created with non-negative burst and positive refill
rate satisfies `0 ≤ tokens ≤ maxTokens` after every `take()` of any
sequence of takes with non-negative elapsed times (`pre` is the sequence
up to and including the observed call). -/
theorem tokenBucket_invariant (rps burst : Int) (hb : 0 ≤ burst) (hr : 0 < rps)
    (es pre suf : List ℚ) (hsplit : es = pre ++ suf) (he : ∀ e ∈ es, 0 ≤ e) :
    (runTakes (newTokenBucket rps burst) pre).inv := by
  refine runTakes_inv _ _ ?_ ?_ ?_
  · show (0 : ℚ) ≤ (rps : ℚ)
    exact_mod_cast le_of_lt hr
  · constructor
    · show (0 : ℚ) ≤ (burst : ℚ)
      exact_mod_cast hb
    · exact le_refl _
  · intro x hx
    exact he x (hsplit ▸ List.mem_append_left suf hx)

/-- C6 witness: burst 2, rate 1, takes with elapsed times `[0, 1/2]` observed
after the first call. -/
theorem tokenBucket_invariant_witness :
    (0 : Int) ≤ 2 ∧ (0 : Int) < 1 ∧ ([(0 : ℚ), 1/2] = [(0 : ℚ)] ++ [(1 : ℚ)/2]) ∧
    (runTakes (newTokenBucket 1 2) [(0 : ℚ)]).inv :=
  ⟨by decide, by decide, rfl,
    tokenBucket_invariant 1 2 (by decide) (by decide) [(0 : ℚ), 1/2] [(0 : ℚ)] [(1 : ℚ)/2]
      rfl (by intro x hx; fin_cases hx <;> norm_num)⟩

theorem findBucketKeyLoop_no_match (path : String) (l : List (String × PathLimit))
    (h : ∀ pl ∈ l, goIsPrefixOf pl.1 path = false) : findBucketKeyLoop path l = "default" := by
  induction l with
  | nil => rfl
  | cons pl rest ih =>
    rw [findBucketKeyLoop, if_neg]
    · exact ih fun q hq => h q (List.mem_cons_of_mem pl hq)
    · simp [h pl (List.mem_cons_self pl rest)]

theorem getLimitForPathLoop_no_match (dRPS dBurst : Int) (path : String)
    (l : List (String × PathLimit)) (h : ∀ pl ∈ l, goIsPrefixOf pl.1 path = false) :
    getLimitForPathLoop dRPS dBurst path l = (dRPS, dBurst) := by
  induction l with
  | nil => rfl
  | cons pl rest ih =>
    rw [getLimitForPathLoop, if_neg]
    · exact ih fun q hq => h q (List.mem_cons_of_mem pl hq)
    · simp [h pl (List.mem_cons_self pl rest)]

theorem findBucketKeyLoop_first_match (path : String) (l : List (String × PathLimit))
    (pl : String × PathLimit) (h : l.find? (fun q => goIsPrefixOf q.1 path) = some pl) :
    findBucketKeyLoop path l = pl.1 := by
  induction l with
  | nil => simp [List.find?] at h
  | cons q rest ih =>
    rw [findBucketKeyLoop]
    rcases hq : goIsPrefixOf q.1 path with _ | _
    · rw [List.find?_cons_of_neg _ (by simp [hq])] at h
      simp [hq, ih h]
    · rw [List.find?_cons_of_pos _ (by simp [hq])] at h
      simp only [Option.some.injEq] at h
      simp [hq, h]

theorem getLimitForPathLoop_first_match (dRPS dBurst : Int) (path : String)
    (l : List (String × PathLimit)) (pl : String × PathLimit)
    (h : l.find? (fun q => goIsPrefixOf q.1 path) = some pl) :
    getLimitForPathLoop dRPS dBurst path l = (pl.2.RPS, pl.2.Burst) := by
  induction l with
  | nil => simp [List.find?] at h
  | cons q rest ih =>
    rw [getLimitForPathLoop]
    rcases hq : goIsPrefixOf q.1 path with _ | _
    · rw [List.find?_cons_of_neg _ (by simp [hq])] at h
      simp [hq, ih h]
    · rw [List.find?_cons_of_pos _ (by simp [hq])] at h
      simp only [Option.some.injEq] at h
      simp [hq, ← h]

/-- C7 counterexample: with registered prefixes iterated in the order
`"/a"`, `"/ab"` (Go map iteration order is unspecified), the path `"/abc"`
matches both, and `findBucketKey`/`getLimitForPath` select `"/a"` — not
the longest matching registered prefix `"/ab"`. -/
theorem findBucketKey_not_longest_counterexample :
    findBucketKey ⟨1, 2, [("/a", ⟨3, 4⟩), ("/ab", ⟨5, 6⟩)]⟩ "/abc" = "/a" ∧
    getLimitForPath ⟨1, 2, [("/a", ⟨3, 4⟩), ("/ab", ⟨5, 6⟩)]⟩ "/abc" = (3, 4) ∧
    ("/ab", (⟨5, 6⟩ : PathLimit)) ∈
      (⟨1, 2, [("/a", ⟨3, 4⟩), ("/ab", ⟨5, 6⟩)]⟩ : RateLimitConfig).PathLimits ∧
    goIsPrefixOf "/ab" "/abc" = true ∧
    ("/a" : String).length < ("/ab" : String).length := by
  refine ⟨by decide, by decide, by decide, by decide, by decide⟩

/-- C7 amended: the rate limiter selects the first registered prefix in
iteration order that is a prefix of the path (not necessarily the longest
match); a path matching no registered prefix falls back to the `"default"`
bucket with the configured default RPS and burst. -/
theorem findBucketKey_first_match_or_default (cfg : RateLimitConfig) (path : String) :
    ((∀ pl ∈ cfg.PathLimits, goIsPrefixOf pl.1 path = false) →
      findBucketKey cfg path = "default" ∧
      getLimitForPath cfg path = (cfg.DefaultRPS, cfg.DefaultBurst)) ∧
    (∀ pl, cfg.PathLimits.find? (fun q => goIsPrefixOf q.1 path) = some pl →
      findBucketKey cfg path = pl.1 ∧ getLimitForPath cfg path = (pl.2.RPS, pl.2.Burst)) := by
  constructor
  · intro h
    exact ⟨findBucketKeyLoop_no_match path _ h, getLimitForPathLoop_no_match _ _ path _ h⟩
  · intro pl h
    exact ⟨findBucketKeyLoop_first_match path _ pl h,
      getLimitForPathLoop_first_match _ _ path _ pl h⟩

/-- C7 amended, witness: the first match in iteration order is `"/a"` with
limit `(3, 4)`. -/
theorem findBucketKey_first_match_or_default_witness :
    ((⟨1, 2, [("/a", ⟨3, 4⟩), ("/ab", ⟨5, 6⟩)]⟩ : RateLimitConfig).PathLimits.find?
        (fun q => goIsPrefixOf q.1 "/abc") = some ("/a", ⟨3, 4⟩)) ∧
    findBucketKey ⟨1, 2, [("/a", ⟨3, 4⟩), ("/ab", ⟨5, 6⟩)]⟩ "/abc" = "/a" ∧
    getLimitForPath ⟨1, 2, [("/a", ⟨3, 4⟩), ("/ab", ⟨5, 6⟩)]⟩ "/abc" = (3, 4) :=
  ⟨by decide,
    (findBucketKey_first_match_or_default ⟨1, 2, [("/a", ⟨3, 4⟩), ("/ab", ⟨5, 6⟩)]⟩ "/abc").2
      ("/a", ⟨3, 4⟩) (by decide)⟩

theorem execLoop_always_fail (p : RetryPolicy) (a : APIError) (hret : a.IsRetryable = true) :
    ∀ (fuel : Nat) (attempt aset : Int) (lastErr : Option GoError) (calls : Nat),
      1 ≤ fuel → attempt = p.maxAttempts - fuel + 1 →
      execLoop p (fun n => (some (.api a), n + 1)) (fun _ => true) fuel attempt aset lastErr
          calls =
        (⟨p.maxAttempts, some (.api a)⟩, calls + fuel) := by
  intro fuel
  induction fuel with
  | zero => intro attempt aset lastErr calls h; omega
  | succ f ih =>
    intro attempt aset lastErr calls _ hatt
    rw [execLoop]
    cases f with
    | zero =>
      have hmax : attempt = p.maxAttempts := by omega
      subst hmax
      have hsr : p.ShouldRetry (some (.api a)) p.maxAttempts = false := by
        unfold RetryPolicy.ShouldRetry
        rw [if_pos (by omega)]
      simp [hsr]
    | succ f2 =>
      have hlt : attempt < p.maxAttempts := by omega
      have hsr : p.ShouldRetry (some (.api a)) attempt = true := by
        unfold RetryPolicy.ShouldRetry
        rw [if_neg (by omega)]
        simpa [GoError.retryableFlag] using hret
      simp only [hsr, if_true, if_pos hlt]
      rw [ih (attempt + 1) attempt (some (.api a)) (calls + 1) (by omega) (by push_cast; omega)]
      refine Prod.ext rfl ?_
      simp
      omega

/-- C4: with `maxAttempts = N ≥ 1`, an uncancelled context, and an operation
that always fails with a retryable `APIError`, `Execute` invokes the
operation exactly `N` times and returns `Attempts = N` with that error as
`LastError`. -/
theorem execute_always_failing_retryable (p : RetryPolicy) (a : APIError) (N : Nat)
    (hN : 1 ≤ N) (hmax : p.maxAttempts = (N : Int)) (hret : a.IsRetryable = true) :
    executeGo p (fun _ => some (.api a)) (fun _ => true) = (⟨(N : Int), some (.api a)⟩, N) := by
  unfold executeGo
  have htn : p.maxAttempts.toNat = N := by omega
  rw [htn]
  have h := execLoop_always_fail p a hret N 1 0 none 0 hN (by omega)
  rw [hmax] at h
  simpa using h

/-- C4 witness: `maxAttempts = 2`, operation always failing with
a `error_server` / HTTP 500 error. -/
theorem execute_always_failing_retryable_witness :
    1 ≤ 2 ∧ ((⟨2, 0, 0, 0, 0⟩ : RetryPolicy).maxAttempts = ((2 : Nat) : Int)) ∧
    (APIError.IsRetryable ⟨CodeServerError, "boom", "", 500⟩ = true) ∧
    executeGo ⟨2, 0, 0, 0, 0⟩ (fun _ => some (.api ⟨CodeServerError, "boom", "", 500⟩))
        (fun _ => true) =
      (⟨((2 : Nat) : Int), some (.api ⟨CodeServerError, "boom", "", 500⟩)⟩, 2) :=
  ⟨by omega, by decide, by decide,
    execute_always_failing_retryable ⟨2, 0, 0, 0, 0⟩ ⟨CodeServerError, "boom", "", 500⟩ 2
      (by omega) (by decide) (by decide)⟩

/-- C10: with `maxAttempts ≤ 0` (for example a policy built with
`WithMaxAttempts(0)`), the Executor's loop never runs: the operation is
never invoked and the result is `Attempts = 0`, `LastError = nil`; through
`Client.Do` this surfaces as a nil (success) return with zero HTTP calls
and zero refreshes. -/
theorem execute_zero_attempts (p : RetryPolicy) (op : Nat → Option GoError) (ctxOK : Int → Bool)
    (c : ClientModel) (hp : p.maxAttempts ≤ 0) (hc : c.policy.maxAttempts ≤ 0) :
    executeGo p op ctxOK = (⟨0, none⟩, 0) ∧
    c.Do ctxOK = (⟨0, none⟩, (0, 0)) ∧ c.DoError ctxOK = none := by
  have h1 : p.maxAttempts.toNat = 0 := by omega
  have h2 : c.policy.maxAttempts.toNat = 0 := by omega
  refine ⟨?_, ?_, ?_⟩
  · unfold executeGo
    rw [h1, execLoop]
  · unfold ClientModel.Do
    rw [h2, execLoop]
  · unfold ClientModel.DoError ClientModel.Do
    rw [h2, execLoop]

/-- C10 witness: a policy derived via `WithMaxAttempts 0`. -/
theorem execute_zero_attempts_witness :
    ((RetryPolicy.WithMaxAttempts ⟨3, 0, 0, 0, 0⟩ 0).maxAttempts ≤ 0) ∧
    executeGo (RetryPolicy.WithMaxAttempts ⟨3, 0, 0, 0, 0⟩ 0) (fun _ => none) (fun _ => true) =
      (⟨0, none⟩, 0) ∧
    ClientModel.Do ⟨RetryPolicy.WithMaxAttempts ⟨3, 0, 0, 0, 0⟩ 0, false, false, fun _ => none,
        fun _ => none⟩ (fun _ => true) = (⟨0, none⟩, (0, 0)) ∧
    ClientModel.DoError ⟨RetryPolicy.WithMaxAttempts ⟨3, 0, 0, 0, 0⟩ 0, false, false,
        fun _ => none, fun _ => none⟩ (fun _ => true) = none :=
  ⟨by decide,
    execute_zero_attempts (RetryPolicy.WithMaxAttempts ⟨3, 0, 0, 0, 0⟩ 0) (fun _ => none)
      (fun _ => true)
      ⟨RetryPolicy.WithMaxAttempts ⟨3, 0, 0, 0, 0⟩ 0, false, false, fun _ => none, fun _ => none⟩
      (by decide) (by decide)⟩

/-- C3 counterexample: an `error_auth` `APIError` with message `"hello"` —
containing none of the known token-expiry substrings, hence not
token-expired by the domain classifier `APIError.isTokenExpired` — still
triggers the refresh path in `Client.Do`: `tokenExpiredTrigger` is true
and a run of `Do` on it invokes `RefreshToken` once. -/
theorem refresh_triggered_without_substring_counterexample :
    tokenExpiredTrigger (.api ⟨CodeAuthError, "hello", "", 401⟩) = true ∧
    containsAny "hello" ["token expired", "invalid token", "access_token invalid"] = false ∧
    APIError.isTokenExpired ⟨CodeAuthError, "hello", "", 401⟩ = false ∧
    APIError.Category ⟨CodeAuthError, "hello", "", 401⟩ = CategoryAuthentication ∧
    (ClientModel.Do ⟨⟨1, 0, 0, 0, 0⟩, true, true,
        fun _ => some (.api ⟨CodeAuthError, "hello", "", 401⟩), fun _ => none⟩
      (fun _ => true)).2.2 = 1 := by
  refine ⟨by decide, by decide, by decide, by decide, by decide⟩

/-- C3 amended: the refresh path in `Client.Do` is triggered by an `APIError`
exactly when its code is `error_auth` — the message substrings checked by
`APIError.isTokenExpired` play no role in the client's trigger. -/
theorem tokenExpiredTrigger_iff_auth_code (a : APIError) :
    tokenExpiredTrigger (.api a) = true ↔ a.Code = CodeAuthError := by
  have hne := errorString_api_ne_sentinel a
  simp [tokenExpiredTrigger, isTokenExpiredError, hne]

theorem doOp_none (c : ClientModel) (h r : Nat) (hd : c.doReqResults h = none) :
    c.doOp (h, r) = (none, (h + 1, r)) := by
  unfold ClientModel.doOp
  rw [hd]

theorem doOp_no_trigger (c : ClientModel) (h r : Nat) (e : GoError)
    (hd : c.doReqResults h = some e) (ht : tokenExpiredTrigger e = false) :
    c.doOp (h, r) = (some e, (h + 1, r)) := by
  unfold ClientModel.doOp
  rw [hd]
  simp [ht]

theorem doOp_trigger_no_refresher (c : ClientModel) (h r : Nat) (e : GoError)
    (hd : c.doReqResults h = some e) (ht : tokenExpiredTrigger e = true)
    (hhr : c.hasRefresher = false) : c.doOp (h, r) = (some e, (h + 1, r)) := by
  unfold ClientModel.doOp ClientModel.tryRefreshToken
  rw [hd]
  simp [ht, hhr]

theorem doOp_trigger_no_refresh_token (c : ClientModel) (h r : Nat) (e : GoError)
    (hd : c.doReqResults h = some e) (ht : tokenExpiredTrigger e = true)
    (hhr : c.hasRefresher = true) (hpr : c.refreshTokenPresent = false) :
    c.doOp (h, r) = (some e, (h + 1, r)) := by
  unfold ClientModel.doOp ClientModel.tryRefreshToken
  rw [hd]
  simp [ht, hhr, hpr]

theorem doOp_trigger_refresh_fail (c : ClientModel) (h r : Nat) (e er : GoError)
    (hd : c.doReqResults h = some e) (ht : tokenExpiredTrigger e = true)
    (hhr : c.hasRefresher = true) (hpr : c.refreshTokenPresent = true)
    (hrr : c.refreshResults r = some er) : c.doOp (h, r) = (some e, (h + 1, r + 1)) := by
  unfold ClientModel.doOp ClientModel.tryRefreshToken
  rw [hd]
  simp [ht, hhr, hpr, hrr]

theorem doOp_trigger_refresh_ok (c : ClientModel) (h r : Nat) (e : GoError)
    (hd : c.doReqResults h = some e) (ht : tokenExpiredTrigger e = true)
    (hhr : c.hasRefresher = true) (hpr : c.refreshTokenPresent = true)
    (hrr : c.refreshResults r = none) :
    c.doOp (h, r) = (some tokenRefreshedSentinel, (h + 1, r + 1)) := by
  unfold ClientModel.doOp ClientModel.tryRefreshToken
  rw [hd]
  simp [ht, hhr, hpr, hrr]

theorem sentinel_not_retryable : tokenRefreshedSentinel.retryableFlag = false := by decide

theorem execLoop_refresh_bound (c : ClientModel) (ctxOK : Int → Bool)
    (htok : ∀ k e, c.doReqResults k = some e → tokenExpiredTrigger e = true →
      e.retryableFlag = false) :
    ∀ (fuel : Nat) (attempt aset : Int) (lastErr : Option GoError) (h r : Nat),
      (execLoop c.policy c.doOp ctxOK fuel attempt aset lastErr (h, r)).2.2 ≤ r + 1 := by
  intro fuel
  induction fuel with
  | zero =>
    intro attempt aset lastErr h r
    rw [execLoop]
    dsimp only
    omega
  | succ f ih =>
    intro attempt aset lastErr h r
    rw [execLoop]
    rcases hd : c.doReqResults h with _ | e
    · rw [doOp_none c h r hd]
      dsimp only
      omega
    · rcases ht : tokenExpiredTrigger e with _ | _
      · rw [doOp_no_trigger c h r e hd ht]
        dsimp only
        split_ifs with h1 h2 h3
        · exact ih (attempt + 1) attempt (some e) (h + 1) r
        · dsimp only
          omega
        · exact ih (attempt + 1) attempt (some e) (h + 1) r
        · dsimp only
          omega
      · have hflag : e.retryableFlag = false := htok h e hd ht
        have hsr := shouldRetry_false_of_flag c.policy e attempt hflag
        have hsr2 := shouldRetry_false_of_flag c.policy tokenRefreshedSentinel attempt
          sentinel_not_retryable
        rcases hhr : c.hasRefresher with _ | _
        · rw [doOp_trigger_no_refresher c h r e hd ht hhr]
          dsimp only
          rw [hsr]
          simp only [Bool.false_eq_true, if_false]
          omega
        · rcases hpr : c.refreshTokenPresent with _ | _
          · rw [doOp_trigger_no_refresh_token c h r e hd ht hhr hpr]
            dsimp only
            rw [hsr]
            simp only [Bool.false_eq_true, if_false]
            omega
          · rcases hrr : c.refreshResults r with _ | er
            · rw [doOp_trigger_refresh_ok c h r e hd ht hhr hpr hrr]
              dsimp only
              rw [hsr2]
              simp only [Bool.false_eq_true, if_false]
              omega
            · rw [doOp_trigger_refresh_fail c h r e er hd ht hhr hpr hrr]
              dsimp only
              rw [hsr]
              simp only [Bool.false_eq_true, if_false]
              omega

/-- C2 amended: provided every error the attempts classify as token-expired is
itself non-retryable (the usual HTTP 401 case), a single `Client.Do` call
invokes `RefreshToken` at most once, and when the first attempt's error is
token-expired and the refresh fails, `Do` stops after that one attempt and
returns the original attempt error (not the refresh error). When a
token-expired error is additionally retryable (e.g. HTTP 500), the loop
retries and refreshes once per failing attempt, as the counterexample
shows. -/
theorem refresh_at_most_once_when_nonretryable (c : ClientModel) (ctxOK : Int → Bool)
    (htok : ∀ k e, c.doReqResults k = some e → tokenExpiredTrigger e = true →
      e.retryableFlag = false) :
    (c.Do ctxOK).2.2 ≤ 1 ∧
    (∀ e re, 1 ≤ c.policy.maxAttempts → c.doReqResults 0 = some e →
      tokenExpiredTrigger e = true → c.hasRefresher = true → c.refreshTokenPresent = true →
      c.refreshResults 0 = some re → c.Do ctxOK = (⟨1, some e⟩, (1, 1))) := by
  constructor
  · exact execLoop_refresh_bound c ctxOK htok c.policy.maxAttempts.toNat 1 0 none 0 0
  · intro e re hmax hd ht hhr hpr hrr
    obtain ⟨f, hf⟩ : ∃ f, c.policy.maxAttempts.toNat = f + 1 :=
      ⟨(c.policy.maxAttempts - 1).toNat, by omega⟩
    unfold ClientModel.Do
    rw [hf, execLoop, doOp_trigger_refresh_fail c 0 0 e re hd ht hhr hpr hrr]
    dsimp only
    rw [shouldRetry_false_of_flag c.policy e 1 (htok 0 e hd ht)]
    simp only [Bool.false_eq_true, if_false]

/-- C2 amended, witness: one attempt failing with a non-retryable
token-expired error (`error_auth`, HTTP 401) and a failing refresher:
exactly one refresh, and `Do` returns the original attempt error. -/
theorem refresh_at_most_once_when_nonretryable_witness :
    (ClientModel.Do ⟨⟨3, 0, 0, 0, 0⟩, true, true,
        fun _ => some (.api ⟨CodeAuthError, "token expired", "", 401⟩),
        fun _ => some (.plain "refresh failed")⟩ (fun _ => true)).2.2 ≤ 1 ∧
    ClientModel.Do ⟨⟨3, 0, 0, 0, 0⟩, true, true,
        fun _ => some (.api ⟨CodeAuthError, "token expired", "", 401⟩),
        fun _ => some (.plain "refresh failed")⟩ (fun _ => true) =
      (⟨1, some (.api ⟨CodeAuthError, "token expired", "", 401⟩)⟩, (1, 1)) := by
  have h := refresh_at_most_once_when_nonretryable
    ⟨⟨3, 0, 0, 0, 0⟩, true, true,
      fun _ => some (.api ⟨CodeAuthError, "token expired", "", 401⟩),
      fun _ => some (.plain "refresh failed")⟩ (fun _ => true)
    (by
      intro k e hk htr
      simp only [Option.some.injEq] at hk
      subst hk
      decide)
  exact ⟨h.1, h.2 (.api ⟨CodeAuthError, "token expired", "", 401⟩) (.plain "refresh failed")
    (by decide) rfl (by decide) rfl rfl rfl⟩

/-- C2 counterexample: when the token-expired error is also retryable
(`error_auth` with HTTP 500), a single `Do` call with `maxAttempts = 3`
and an always-failing refresher invokes `RefreshToken` three times — once
per failing attempt — and keeps retrying after each failed refresh,
contradicting both the at-most-one-refresh and the no-further-retries
parts of the claim. -/
theorem refresh_more_than_once_counterexample :
    ClientModel.Do ⟨⟨3, 0, 0, 0, 0⟩, true, true,
        fun _ => some (.api ⟨CodeAuthError, "token expired", "", 500⟩),
        fun _ => some (.plain "refresh failed")⟩ (fun _ => true) =
      (⟨3, some (.api ⟨CodeAuthError, "token expired", "", 500⟩)⟩, (3, 3)) ∧
    ¬ ((ClientModel.Do ⟨⟨3, 0, 0, 0, 0⟩, true, true,
        fun _ => some (.api ⟨CodeAuthError, "token expired", "", 500⟩),
        fun _ => some (.plain "refresh failed")⟩ (fun _ => true)).2.2 ≤ 1) := by
  refine ⟨by decide, by decide⟩
